import Mathlib

/-!
Verification of the BookGen-AI training-data lifecycle and fine-tuning
orchestration engine, as described by the repository's specification and
documentation (llm-service READMEs), together with the frontend UsageMeter
component. The Python modules implementing the engine
(validate_data.py, app/ml/data_schema.py, app/ml/llm_trainer.py, app/main.py)
are not part of the source tree available here; the engine definitions below
are therefore modelled from the specification text. The UsageMeter component
is embedded directly from its TypeScript source.
-/

namespace BookGen

/-- Subscription tier of a training example (basic | professional | enterprise). -/
inductive Tier
  | basic
  | professional
  | enterprise
deriving DecidableEq, Repr

/-- Modelled from the spec: parse the raw tier string of an ingested example;
only the three tier names are accepted. -/
def tierOfString : String → Option Tier
  | "basic" => some Tier.basic
  | "professional" => some Tier.professional
  | "enterprise" => some Tier.enterprise
  | _ => none

/-- Metadata of a training example (source, createdAt, tokenCount, validated flag). -/
structure ExampleMetadata where
  source : String
  createdAt : String
  tokenCount : Nat
  validated : Bool
deriving DecidableEq, Repr

/-- Modelled from the spec: a validated TrainingExample, one input/output pair. -/
structure TrainingExample where
  id : String
  input : String
  output : String
  context : String
  difficultyLevel : Int
  tier : Tier
  tags : List String
  qualityScore : ℚ
  metadata : ExampleMetadata
deriving DecidableEq, Repr

/-- Modelled from the spec: a raw (duck-typed) ingestion record, before
validation; required fields may be absent, hence the Option types. -/
structure RawExample where
  id : String
  domain : Option String
  input : Option String
  output : Option String
  context : Option String
  difficultyLevel : Option Int
  tier : Option String
  tags : List String
  qualityScore : Option ℚ
  source : String
  createdAt : String
  tokenCount : Nat
deriving DecidableEq, Repr

/-- A validation failure names the failing field and the offending value. -/
structure ValidationError where
  field : String
  value : String
deriving DecidableEq, Repr

/-- Modelled from the spec: the Example Validator, missing from the available
source (validate_data.py). Checks, in order: required fields present
(domain, input, output, difficultyLevel, tier; qualityScore optional);
input length at least 10; output length at least 20; difficultyLevel an
integer in 1..10; tier one of the three tier names; domain equal
(case-sensitively) to the target domain; id not a duplicate within the batch.
The first failing check produces the ValidationError. -/
def validate (targetDomain : String) (seenIds : List String) (r : RawExample) :
    Except ValidationError TrainingExample :=
  match r.domain with
  | none => Except.error ⟨"domain", "missing"⟩
  | some dom =>
    match r.input with
    | none => Except.error ⟨"input", "missing"⟩
    | some inp =>
      match r.output with
      | none => Except.error ⟨"output", "missing"⟩
      | some outp =>
        match r.difficultyLevel with
        | none => Except.error ⟨"difficultyLevel", "missing"⟩
        | some diff =>
          match r.tier with
          | none => Except.error ⟨"tier", "missing"⟩
          | some tierStr =>
            if inp.length < 10 then Except.error ⟨"input", inp⟩
            else if outp.length < 20 then Except.error ⟨"output", outp⟩
            else if diff < 1 ∨ 10 < diff then
              Except.error ⟨"difficultyLevel", toString diff⟩
            else
              match tierOfString tierStr with
              | none => Except.error ⟨"tier", tierStr⟩
              | some tr =>
                if dom ≠ targetDomain then Except.error ⟨"domain", dom⟩
                else if r.id ∈ seenIds then Except.error ⟨"id", r.id⟩
                else Except.ok
                  { id := r.id
                    input := inp
                    output := outp
                    context := r.context.getD ""
                    difficultyLevel := diff
                    tier := tr
                    tags := r.tags
                    qualityScore := r.qualityScore.getD 0
                    metadata :=
                      { source := r.source
                        createdAt := r.createdAt
                        tokenCount := r.tokenCount
                        validated := false } }

/-- All required fields of a raw example are present (qualityScore is optional). -/
def RequiredPresent (r : RawExample) : Prop :=
  r.domain.isSome ∧ r.input.isSome ∧ r.output.isSome ∧
    r.difficultyLevel.isSome ∧ r.tier.isSome

/-- Declarative statement, following the spec sentence, that every validation
check passes for a raw example. -/
def ChecksPass (targetDomain : String) (seenIds : List String) (r : RawExample) : Prop :=
  RequiredPresent r ∧
  (∀ s, r.input = some s → 10 ≤ s.length) ∧
  (∀ s, r.output = some s → 20 ≤ s.length) ∧
  (∀ n, r.difficultyLevel = some n → 1 ≤ n ∧ n ≤ 10) ∧
  (∀ s, r.tier = some s → s = "basic" ∨ s = "professional" ∨ s = "enterprise") ∧
  (∀ s, r.domain = some s → s = targetDomain) ∧
  r.id ∉ seenIds

/-- The ordered list of validation checks, following the spec's listed order:
each entry pairs the Boolean "this check fails" with the error it would
report. Written from the spec's words, to be compared with validate. -/
def orderedChecks (targetDomain : String) (seenIds : List String) (r : RawExample) :
    List (Bool × ValidationError) :=
  [ (r.domain.isNone, ⟨"domain", "missing"⟩)
  , (r.input.isNone, ⟨"input", "missing"⟩)
  , (r.output.isNone, ⟨"output", "missing"⟩)
  , (r.difficultyLevel.isNone, ⟨"difficultyLevel", "missing"⟩)
  , (r.tier.isNone, ⟨"tier", "missing"⟩)
  , (match r.input with
     | some s => (decide (s.length < 10), ⟨"input", s⟩)
     | none => (false, ⟨"input", "missing"⟩))
  , (match r.output with
     | some s => (decide (s.length < 20), ⟨"output", s⟩)
     | none => (false, ⟨"output", "missing"⟩))
  , (match r.difficultyLevel with
     | some n => (decide (n < 1 ∨ 10 < n), ⟨"difficultyLevel", toString n⟩)
     | none => (false, ⟨"difficultyLevel", "missing"⟩))
  , (match r.tier with
     | some s => ((tierOfString s).isNone, ⟨"tier", s⟩)
     | none => (false, ⟨"tier", "missing"⟩))
  , (match r.domain with
     | some s => (decide (s ≠ targetDomain), ⟨"domain", s⟩)
     | none => (false, ⟨"domain", "missing"⟩))
  , (decide (r.id ∈ seenIds), ⟨"id", r.id⟩) ]

/-- The errors of the checks that fail, kept in the spec's listed order. -/
def failedChecks (targetDomain : String) (seenIds : List String) (r : RawExample) :
    List ValidationError :=
  ((orderedChecks targetDomain seenIds r).filter (fun c => c.1)).map (fun c => c.2)

/-- Modelled from the spec: the recommended difficulty-to-tier mapping
(1-3 basic, 4-7 professional, 8-10 enterprise). -/
def recommendedTier (d : Int) : Tier :=
  if d ≤ 3 then Tier.basic else if d ≤ 7 then Tier.professional else Tier.enterprise

/-- An example disagrees with the recommended difficulty-to-tier mapping. -/
def tierMismatch (ex : TrainingExample) : Bool :=
  decide (ex.tier ≠ recommendedTier ex.difficultyLevel)

/-- Modelled from the spec: ingestion flags a tier-vs-difficulty mismatch as a
warning; it never rejects for it. -/
def mismatchWarning (ex : TrainingExample) : Option String :=
  if tierMismatch ex then
    some ("tier does not match recommended tier for difficulty: " ++ ex.id)
  else none

/-- Modelled from the spec: configuration of the Quality Scorer (configurable
maximum output length and quality floor, default 6.0). -/
structure ScoringConfig where
  maxTokens : Nat
  qualityFloor : ℚ
deriving DecidableEq, Repr

/-- Default scoring configuration (quality floor 6.0). -/
def defaultScoringConfig : ScoringConfig :=
  { maxTokens := 2048, qualityFloor := 6 }

/-- Modelled from the spec: length-adequacy sub-scorer; penalizes outputs
under about 50 tokens or over the configurable maximum. -/
def lengthAdequacy (cfg : ScoringConfig) (ex : TrainingExample) : ℚ :=
  if ex.metadata.tokenCount < 50 then (ex.metadata.tokenCount : ℚ) / 5
  else if cfg.maxTokens < ex.metadata.tokenCount then 4
  else 10

/-- Modelled from the spec: tag-coverage sub-scorer; rewards two or more tags. -/
def tagCoverage (ex : TrainingExample) : ℚ :=
  if 2 ≤ ex.tags.length then 10 else 4 * ex.tags.length

/-- Number of sentences of an output, counted by sentence-ending periods. -/
def sentenceCount (s : String) : Nat :=
  max 1 (s.toList.count '.')

/-- Modelled from the spec: structural-coherence sub-scorer; full marks when
the average sentence length lies in a plausible band. -/
def coherenceScore (ex : TrainingExample) : ℚ :=
  let avgLen : ℚ := (ex.output.length : ℚ) / (sentenceCount ex.output : ℚ)
  if 20 ≤ avgLen ∧ avgLen ≤ 200 then 10 else 5

/-- Modelled from the spec: source-trust sub-scorer; manually-curated sources
score higher than scraped or auto-extracted ones. -/
def sourceTrust (ex : TrainingExample) : ℚ :=
  if ex.metadata.source = "manual_creation" then 10 else 6

/-- Modelled from the spec: the Quality Scorer, missing from the available
source (data_importer.py). A deterministic weighted sum of the four named
sub-scorers, each valued in 0..10, with weights 3/10, 2/10, 3/10, 2/10. -/
def score (cfg : ScoringConfig) (ex : TrainingExample) : ℚ :=
  (3 / 10 : ℚ) * lengthAdequacy cfg ex + (2 / 10 : ℚ) * tagCoverage ex +
    (3 / 10 : ℚ) * coherenceScore ex + (2 / 10 : ℚ) * sourceTrust ex

/-- Modelled from the spec: recompute the quality score of an example and mark
it validated exactly when the score reaches the configurable floor; the
example is never discarded here. -/
def scoreAndMark (cfg : ScoringConfig) (ex : TrainingExample) : TrainingExample :=
  let q := score cfg ex
  { ex with
    qualityScore := q
    metadata := { ex.metadata with validated := cfg.qualityFloor ≤ q } }

/-- Final metrics of a completed training run. -/
structure TrainMetrics where
  trainLoss : ℚ
  evalLoss : ℚ
  perplexity : ℚ
deriving DecidableEq, Repr

/-- Modelled from the spec: a ModelArtifact, the output of a completed job. -/
structure ModelArtifact where
  id : Nat
  domainId : String
  version : Nat
  sourceJobId : Nat
  checkpointLocation : String
  metrics : TrainMetrics
  isActive : Bool
deriving DecidableEq, Repr

/-- Modelled from the spec: the Model Registry state — an append-only artifact
store plus the fresh-id counter. -/
structure Registry where
  artifacts : List ModelArtifact
  nextArtifactId : Nat
deriving DecidableEq, Repr

/-- The empty registry. -/
def Registry.empty : Registry := { artifacts := [], nextArtifactId := 0 }

/-- Modelled from the spec: register the checkpoint of a completed job as a
new, inactive ModelArtifact; returns the new state and the artifact id. -/
def Registry.register (r : Registry) (jobId : Nat) (domainId : String)
    (checkpointLocation : String) (m : TrainMetrics) : Registry × Nat :=
  let a : ModelArtifact :=
    { id := r.nextArtifactId
      domainId := domainId
      version := (r.artifacts.filter (fun b => b.domainId == domainId)).length + 1
      sourceJobId := jobId
      checkpointLocation := checkpointLocation
      metrics := m
      isActive := false }
  ({ artifacts := r.artifacts ++ [a], nextArtifactId := r.nextArtifactId + 1 }, a.id)

/-- Look an artifact up by id. -/
def Registry.lookup (r : Registry) (aid : Nat) : Option ModelArtifact :=
  r.artifacts.find? (fun a => a.id == aid)

/-- Registry operation failure. -/
inductive RegistryError
  | NotFound
deriving DecidableEq, Repr

/-- Modelled from the spec: activate an artifact; in one atomic step the
previous active artifact of the same domain is deactivated and the chosen
one activated. -/
def Registry.activate (r : Registry) (aid : Nat) : Except RegistryError Registry :=
  match r.lookup aid with
  | none => Except.error RegistryError.NotFound
  | some b =>
    Except.ok
      { r with
        artifacts := r.artifacts.map (fun a =>
          if a.domainId == b.domainId then { a with isActive := a.id == aid } else a) }

/-- Modelled from the spec: the active artifact of a domain, if any. -/
def Registry.activeFor (r : Registry) (domainId : String) : Option ModelArtifact :=
  r.artifacts.find? (fun a => a.domainId == domainId && a.isActive)

/-- List the artifacts of a domain. -/
def Registry.listFor (r : Registry) (domainId : String) : List ModelArtifact :=
  r.artifacts.filter (fun a => a.domainId == domainId)

/-- Number of active artifacts a registry holds for a domain. -/
def Registry.activeCount (r : Registry) (domainId : String) : Nat :=
  (r.artifacts.filter (fun a => a.domainId == domainId && a.isActive)).length

/-- Well-formedness of the registry: artifact ids are distinct and below the
fresh-id counter. -/
def Registry.Wf (r : Registry) : Prop :=
  (r.artifacts.map (fun a => a.id)).Nodup ∧
    ∀ a ∈ r.artifacts, a.id < r.nextArtifactId

/-- One registry transition: either a registration of a completed checkpoint
or an activation; activation is a single atomic step. -/
inductive RegistryStep : Registry → Registry → Prop
  | register (r : Registry) (jobId : Nat) (domainId checkpointLocation : String)
      (m : TrainMetrics) :
      RegistryStep r (Registry.register r jobId domainId checkpointLocation m).1
  | activate (r : Registry) (aid : Nat) (r' : Registry)
      (h : r.activate aid = Except.ok r') : RegistryStep r r'

/-- Registry states reachable from the empty registry through registry steps. -/
inductive RegistryReachable : Registry → Prop
  | init : RegistryReachable Registry.empty
  | step {r r' : Registry} : RegistryReachable r → RegistryStep r r' →
      RegistryReachable r'

/-- Status of a training job. -/
inductive JobStatus
  | queued
  | running
  | completed
  | failed
  | cancelled
deriving DecidableEq, Repr

/-- Training hyperparameters. -/
structure Hyperparameters where
  epochs : Nat
  batchSize : Nat
  learningRate : ℚ
deriving DecidableEq, Repr

/-- Progress of a running job. -/
structure JobProgress where
  currentStep : Nat
  totalSteps : Nat
  currentLoss : ℚ
deriving DecidableEq, Repr

/-- Modelled from the spec: a TrainingJob, one fine-tuning run. -/
structure TrainingJob where
  id : Nat
  domainId : String
  datasetVersion : Nat
  status : JobStatus
  hyperparameters : Hyperparameters
  progress : JobProgress
  errorMessage : Option String
deriving DecidableEq, Repr

/-- Modelled from the spec: the Training Job Scheduler state — the job table,
the fresh-id counter, and the Model Registry it hands checkpoints to. -/
structure SchedState where
  jobs : List TrainingJob
  nextJobId : Nat
  registry : Registry
deriving DecidableEq, Repr

/-- The initial scheduler state. -/
def SchedState.init : SchedState :=
  { jobs := [], nextJobId := 0, registry := Registry.empty }

/-- Modelled from the spec: submit a training job; it enters the queue
immediately and the fresh job id is returned. -/
def SchedState.submit (s : SchedState) (domainId : String) (datasetVersion : Nat)
    (h : Hyperparameters) : SchedState × Nat :=
  let j : TrainingJob :=
    { id := s.nextJobId
      domainId := domainId
      datasetVersion := datasetVersion
      status := JobStatus.queued
      hyperparameters := h
      progress := { currentStep := 0, totalSteps := 0, currentLoss := 0 }
      errorMessage := none }
  ({ s with jobs := s.jobs ++ [j], nextJobId := s.nextJobId + 1 }, j.id)

/-- Look a job up by id. -/
def SchedState.findJob (s : SchedState) (jid : Nat) : Option TrainingJob :=
  s.jobs.find? (fun j => j.id == jid)

/-- Set the status of the job with the given id. -/
def SchedState.setStatus (s : SchedState) (jid : Nat) (st : JobStatus) : SchedState :=
  { s with jobs := s.jobs.map (fun j => if j.id == jid then { j with status := st } else j) }

/-- Does some job of the given domain currently run? -/
def SchedState.domainHasRunning (s : SchedState) (domainId : String) : Bool :=
  s.jobs.any (fun j => j.domainId == domainId && j.status == JobStatus.running)

/-- Modelled from the spec: the running-to-completed transition; the job is
marked completed and its checkpoint is handed to the Model Registry as one
new ModelArtifact, which is not auto-activated. -/
def SchedState.completeJob (s : SchedState) (jid : Nat) (checkpointLocation : String)
    (m : TrainMetrics) : SchedState :=
  match s.findJob jid with
  | none => s
  | some j =>
    let s1 := s.setStatus jid JobStatus.completed
    { s1 with registry := (s1.registry.register jid j.domainId checkpointLocation m).1 }

/-- Modelled from the spec: the running-to-failed transition; the cause is
recorded and no artifact is produced. -/
def SchedState.failJob (s : SchedState) (jid : Nat) (msg : String) : SchedState :=
  { s with jobs := s.jobs.map (fun j =>
      if j.id == jid then { j with status := JobStatus.failed, errorMessage := some msg }
      else j) }

/-- One scheduler transition, following the spec's job state machine; a queued
job starts only when no other job of its domain runs. -/
inductive SchedStep : SchedState → SchedState → Prop
  | submit (s : SchedState) (domainId : String) (datasetVersion : Nat)
      (h : Hyperparameters) : SchedStep s (s.submit domainId datasetVersion h).1
  | start (s : SchedState) (jid : Nat) (j : TrainingJob)
      (hfind : s.findJob jid = some j) (hq : j.status = JobStatus.queued)
      (hlock : s.domainHasRunning j.domainId = false) :
      SchedStep s (s.setStatus jid JobStatus.running)
  | complete (s : SchedState) (jid : Nat) (j : TrainingJob)
      (checkpointLocation : String) (m : TrainMetrics)
      (hfind : s.findJob jid = some j) (hr : j.status = JobStatus.running) :
      SchedStep s (s.completeJob jid checkpointLocation m)
  | fail (s : SchedState) (jid : Nat) (j : TrainingJob) (msg : String)
      (hfind : s.findJob jid = some j) (hr : j.status = JobStatus.running) :
      SchedStep s (s.failJob jid msg)
  | cancelRunning (s : SchedState) (jid : Nat) (j : TrainingJob)
      (hfind : s.findJob jid = some j) (hr : j.status = JobStatus.running) :
      SchedStep s (s.setStatus jid JobStatus.cancelled)
  | cancelQueued (s : SchedState) (jid : Nat) (j : TrainingJob)
      (hfind : s.findJob jid = some j) (hq : j.status = JobStatus.queued) :
      SchedStep s (s.setStatus jid JobStatus.cancelled)
  | activateArtifact (s : SchedState) (aid : Nat) (r' : Registry)
      (h : s.registry.activate aid = Except.ok r') :
      SchedStep s { s with registry := r' }

/-- Scheduler states reachable from the initial state. -/
inductive SchedReachable : SchedState → Prop
  | init : SchedReachable SchedState.init
  | step {s s' : SchedState} : SchedReachable s → SchedStep s s' → SchedReachable s'

/-- Number of running jobs a scheduler state holds for a domain. -/
def SchedState.runningCount (s : SchedState) (domainId : String) : Nat :=
  (s.jobs.filter (fun j => j.domainId == domainId && j.status == JobStatus.running)).length

/-- Well-formedness of the scheduler state: job ids are distinct and below the
fresh-id counter. -/
def SchedState.Wf (s : SchedState) : Prop :=
  (s.jobs.map (fun j => j.id)).Nodup ∧ ∀ j ∈ s.jobs, j.id < s.nextJobId

/-- Sampling parameters of a generation request. -/
structure SamplingParams where
  temperature : ℚ
  topP : ℚ
  topK : Nat
  maxLength : Nat
  repetitionPenalty : ℚ
deriving DecidableEq, Repr

/-- Modelled from the spec: clamp sampling parameters to safe bounds. -/
def clampParams (p : SamplingParams) : SamplingParams :=
  { temperature := max (1 / 10) (min p.temperature 2)
    topP := max (1 / 10) (min p.topP 1)
    topK := max 1 (min p.topK 200)
    maxLength := max 1 (min p.maxLength 2048)
    repetitionPenalty := max 1 (min p.repetitionPenalty 2) }

/-- Modelled from the spec: the per-domain, per-tier system preamble framing
the prompt (basic beginner framing, professional practitioner framing,
enterprise strategic framing). -/
def tierPreamble (domainId : String) (t : Tier) : String :=
  match t with
  | Tier.basic => "You are a " ++ domainId ++ " assistant for beginners."
  | Tier.professional => "You are a " ++ domainId ++ " expert."
  | Tier.enterprise => "You are a senior " ++ domainId ++ " consultant."

/-- A successful generation response with its metadata. -/
structure GeneratedText where
  text : String
  domainId : String
  tier : Tier
  modelVersion : Nat
  tokenCount : Nat
  latencyMs : Nat
deriving DecidableEq, Repr

/-- Typed failure of the Generation Service. -/
inductive GenFailure
  | NoActiveModel
  | GenerationError (msg : String)
deriving DecidableEq, Repr

/-- Modelled from the spec: the Generation Service. It resolves the domain's
active artifact, fails fast with NoActiveModel when there is none, builds
the tier preamble plus prompt, invokes the generation primitive with clamped
sampling parameters, and surfaces primitive failures as GenerationError. -/
def generate (r : Registry)
    (primitive : String → SamplingParams → Except String (String × Nat))
    (domainId : String) (t : Tier) (prompt : String) (p : SamplingParams) :
    Except GenFailure GeneratedText :=
  match r.activeFor domainId with
  | none => Except.error GenFailure.NoActiveModel
  | some a =>
    match primitive (tierPreamble domainId t ++ "\n\n" ++ prompt) (clampParams p) with
    | Except.error msg => Except.error (GenFailure.GenerationError msg)
    | Except.ok (text, latency) =>
      Except.ok
        { text := text
          domainId := domainId
          tier := t
          modelVersion := a.version
          tokenCount := text.length
          latencyMs := latency }

/-- A domain as declared by the backend (shared/types): an identifier together
with the subscription tiers it supports. -/
structure Domain where
  id : String
  subscriptionTiers : List Tier
  isActive : Bool
deriving DecidableEq, Repr

/-- A domain declares all three tiers supported. -/
def declaresAllTiers (dom : Domain) : Bool :=
  decide (Tier.basic ∈ dom.subscriptionTiers) &&
    decide (Tier.professional ∈ dom.subscriptionTiers) &&
    decide (Tier.enterprise ∈ dom.subscriptionTiers)

/-- Modelled from the spec: Dataset Assembler configuration (configurable
minimum number of examples per domain, default 100). -/
structure AssemblyConfig where
  minExamplesPerDomain : Nat
deriving DecidableEq, Repr

/-- Default assembly configuration. -/
def defaultAssemblyConfig : AssemblyConfig := { minExamplesPerDomain := 100 }

/-- Dataset assembly failure. -/
inductive AssemblyError
  | InsufficientCoverage
deriving DecidableEq, Repr

/-- The examples of one tier bucket. -/
def tierBucket (exs : List TrainingExample) (t : Tier) : List TrainingExample :=
  exs.filter (fun e => decide (e.tier = t))

/-- Size of the training part of an 80/20 split of n examples. -/
def trainCount (n : Nat) : Nat := 4 * n / 5

/-- Modelled from the spec: the 80/20 train/validation split stratified by
tier; each tier bucket is split separately so validation keeps proportional
tier representation. -/
def stratifiedSplit (exs : List TrainingExample) :
    List TrainingExample × List TrainingExample :=
  let buckets := [Tier.basic, Tier.professional, Tier.enterprise].map (tierBucket exs)
  ((buckets.map (fun b => b.take (trainCount b.length))).flatten,
   (buckets.map (fun b => b.drop (trainCount b.length))).flatten)

/-- Modelled from the spec: the assembled, versioned Dataset of one domain. -/
structure Dataset where
  domainId : String
  version : Nat
  totalExamples : Nat
  tierCounts : Tier → Nat
  averageQuality : ℚ
  trainSplit : List TrainingExample
  valSplit : List TrainingExample

/-- Modelled from the spec: the Dataset Assembler, missing from the available
source. It keeps the validated examples, buckets them by tier, fails with
InsufficientCoverage when the domain declares all three tiers supported and
some tier bucket is empty or when fewer than the configured minimum of
examples remain, and otherwise builds the stratified 80/20 split and a fresh
monotonic version. -/
def assemble (cfg : AssemblyConfig) (dom : Domain) (examples : List TrainingExample)
    (prevVersion : Nat) : Except AssemblyError Dataset :=
  let valid := examples.filter (fun e => e.metadata.validated)
  if (declaresAllTiers dom &&
        ((tierBucket valid Tier.basic).isEmpty ||
          (tierBucket valid Tier.professional).isEmpty ||
          (tierBucket valid Tier.enterprise).isEmpty)) ||
      valid.length < cfg.minExamplesPerDomain then
    Except.error AssemblyError.InsufficientCoverage
  else
    let split := stratifiedSplit valid
    Except.ok
      { domainId := dom.id
        version := prevVersion + 1
        totalExamples := valid.length
        tierCounts := fun t => (tierBucket valid t).length
        averageQuality := (valid.map (fun e => e.qualityScore)).sum / valid.length
        trainSplit := split.1
        valSplit := split.2 }

/-- Percentage shown by the frontend UsageMeter component (first revision):
percentage = Math.min((current / total) * 100, 100). -/
def usagePercentage (current total : ℚ) : ℚ :=
  min (current / total * 100) 100

/-- Percentage shown by the frontend UsageMeter component (revision with the
unlimited-plan branch): total = -1 renders as unlimited with percentage 0,
otherwise Math.min((current / total) * 100, 100). -/
def usagePercentageUnlimited (current total : ℚ) : ℚ :=
  if total = -1 then 0 else min (current / total * 100) 100

/-- Raw example used as a concrete mismatch witness: difficulty 9 paired with
the basic tier, against the recommended mapping. -/
def mismatchRaw : RawExample :=
  { id := "nutrition_001"
    domain := some "nutrition"
    input := some "What is protein intake?"
    output := some "Protein intake should be balanced across all daily meals."
    context := some "nutrition basics"
    difficultyLevel := some 9
    tier := some "basic"
    tags := ["protein", "diet"]
    qualityScore := some 8
    source := "manual_creation"
    createdAt := "2024-01-01T00:00:00Z"
    tokenCount := 120 }

/-- Metadata shared by the concrete assembler fixtures. -/
def fixtureMeta : ExampleMetadata :=
  { source := "manual_creation", createdAt := "2024-01-01T00:00:00Z"
    tokenCount := 120, validated := true }

/-- A concrete validated basic-tier example. -/
def mkBasicExample (i : String) : TrainingExample :=
  { id := i
    input := "What is protein intake?"
    output := "Protein intake should be balanced across all daily meals."
    context := ""
    difficultyLevel := 2
    tier := Tier.basic
    tags := ["protein", "diet"]
    qualityScore := 8
    metadata := fixtureMeta }

/-- A batch holding only basic-tier examples. -/
def basicOnlyExamples : List TrainingExample :=
  [mkBasicExample "a", mkBasicExample "b"]

/-- A domain declaring all three subscription tiers supported. -/
def nutritionAllTiers : Domain :=
  { id := "nutrition"
    subscriptionTiers := [Tier.basic, Tier.professional, Tier.enterprise]
    isActive := true }

/-- A domain declaring only the basic tier. -/
def nutritionBasicOnly : Domain :=
  { id := "nutrition", subscriptionTiers := [Tier.basic], isActive := true }

/-- A relaxed assembly configuration (minimum-coverage requirement lowered). -/
def relaxedAssemblyConfig : AssemblyConfig := { minExamplesPerDomain := 1 }

/-- Concrete final metrics used by the witnesses. -/
def metricsW : TrainMetrics := { trainLoss := 2, evalLoss := 2, perplexity := 7 }

/-- A registry holding one registered (inactive) artifact. -/
def registryW : Registry :=
  (Registry.empty.register 0 "nutrition" "models/final_model" metricsW).1

/-- The artifact the witness registration creates, still inactive. -/
def artifactInactiveW : ModelArtifact :=
  { id := 0, domainId := "nutrition", version := 1, sourceJobId := 0,
    checkpointLocation := "models/final_model", metrics := metricsW, isActive := false }

/-- The witness artifact after activation. -/
def artifactActiveW : ModelArtifact := { artifactInactiveW with isActive := true }

/-- The witness registry after activation of its single artifact. -/
def registryActivatedW : Registry :=
  { artifacts := [artifactActiveW], nextArtifactId := 1 }

/-- Concrete hyperparameters used by the scheduler witnesses. -/
def hyperW : Hyperparameters := { epochs := 1, batchSize := 4, learningRate := 1 }

/-- Scheduler state after one submission for the nutrition domain. -/
def schedW1 : SchedState := (SchedState.init.submit "nutrition" 1 hyperW).1

/-- Scheduler state after two submissions for the nutrition domain. -/
def schedW2 : SchedState := (schedW1.submit "nutrition" 1 hyperW).1

/-- Scheduler state after the first of the two jobs started running. -/
def schedW : SchedState := schedW2.setStatus 0 JobStatus.running

/-- The first submitted nutrition job, still queued. -/
def jobQueuedW : TrainingJob :=
  { id := 0
    domainId := "nutrition"
    datasetVersion := 1
    status := JobStatus.queued
    hyperparameters := hyperW
    progress := { currentStep := 0, totalSteps := 0, currentLoss := 0 }
    errorMessage := none }

/-- The concrete running job of the scheduler witness state. -/
def jobW : TrainingJob :=
  { id := 0
    domainId := "nutrition"
    datasetVersion := 1
    status := JobStatus.running
    hyperparameters := hyperW
    progress := { currentStep := 0, totalSteps := 0, currentLoss := 0 }
    errorMessage := none }

/-- A parse of the tier string succeeds exactly on the three tier names. -/
theorem tierOfString_isSome_iff (s : String) :
    (tierOfString s).isSome = true ↔
      (s = "basic" ∨ s = "professional" ∨ s = "enterprise") := by
  unfold tierOfString
  split <;> simp_all

/-- Sub-scorer bound: length adequacy is valued in 0..10. -/
theorem lengthAdequacy_bounds (cfg : ScoringConfig) (ex : TrainingExample) :
    0 ≤ lengthAdequacy cfg ex ∧ lengthAdequacy cfg ex ≤ 10 := by
  unfold lengthAdequacy
  split_ifs with h1 h2
  · refine ⟨by positivity, ?_⟩
    have h49 : (ex.metadata.tokenCount : ℚ) ≤ 49 := by
      exact_mod_cast (by omega : ex.metadata.tokenCount ≤ 49)
    linarith
  · norm_num
  · norm_num

/-- Sub-scorer bound: tag coverage is valued in 0..10. -/
theorem tagCoverage_bounds (ex : TrainingExample) :
    0 ≤ tagCoverage ex ∧ tagCoverage ex ≤ 10 := by
  unfold tagCoverage
  split_ifs with h1
  · norm_num
  · have hle : (ex.tags.length : ℚ) ≤ 1 := by
      exact_mod_cast (by omega : ex.tags.length ≤ 1)
    constructor
    · positivity
    · linarith

/-- Sub-scorer bound: structural coherence is valued in 0..10. -/
theorem coherenceScore_bounds (ex : TrainingExample) :
    0 ≤ coherenceScore ex ∧ coherenceScore ex ≤ 10 := by
  unfold coherenceScore
  dsimp only
  split_ifs <;> norm_num

/-- Sub-scorer bound: source trust is valued in 0..10. -/
theorem sourceTrust_bounds (ex : TrainingExample) :
    0 ≤ sourceTrust ex ∧ sourceTrust ex ≤ 10 := by
  unfold sourceTrust
  split_ifs <;> norm_num

/-- C8: score is a pure, deterministic function into the interval 0..10 — two
invocations on the same example with the same scoring configuration return
the identical value, and the value always lies between 0 and 10. -/
theorem score_pure_bounded (cfg : ScoringConfig) (ex : TrainingExample) :
    score cfg ex = score cfg ex ∧ 0 ≤ score cfg ex ∧ score cfg ex ≤ 10 := by
  obtain ⟨la0, la10⟩ := lengthAdequacy_bounds cfg ex
  obtain ⟨tc0, tc10⟩ := tagCoverage_bounds ex
  obtain ⟨co0, co10⟩ := coherenceScore_bounds ex
  obtain ⟨st0, st10⟩ := sourceTrust_bounds ex
  refine ⟨rfl, ?_, ?_⟩ <;> (unfold score; linarith)

/-- C3: a generation request for a domain with no active artifact returns the
typed error NoActiveModel — no exception, no empty text, no fallback to any
other model, whatever the underlying primitive would do. -/
theorem generate_no_active_model (r : Registry)
    (primitive : String → SamplingParams → Except String (String × Nat))
    (domainId : String) (t : Tier) (prompt : String) (p : SamplingParams)
    (h : r.activeFor domainId = none) :
    generate r primitive domainId t prompt p = Except.error GenFailure.NoActiveModel := by
  unfold generate
  rw [h]

/-- Witness for generate_no_active_model: the empty registry has no active
nutrition artifact, and a basic-tier request there returns NoActiveModel. -/
theorem generate_no_active_model_witness :
    Registry.activeFor Registry.empty "nutrition" = none ∧
    generate Registry.empty (fun _ _ => Except.ok ("text", 5)) "nutrition"
        Tier.basic "What is protein?"
        { temperature := 4 / 5, topP := 9 / 10, topK := 40, maxLength := 100,
          repetitionPenalty := 1 } =
      Except.error GenFailure.NoActiveModel :=
  ⟨rfl, generate_no_active_model _ _ _ _ _ _ rfl⟩

/-- C10: for a nonnegative usage and a positive limit, the UsageMeter
percentage equals min((current / total) * 100, 100) in both revisions of the
component, never exceeds 100, and is exactly 100 once the user is over the
monthly limit. -/
theorem usage_meter_capped (current total : ℚ) (hc : 0 ≤ current) (ht : 0 < total) :
    usagePercentage current total = min (current / total * 100) 100 ∧
    usagePercentageUnlimited current total = usagePercentage current total ∧
    usagePercentage current total ≤ 100 ∧
    (total < current → usagePercentage current total = 100) := by
  refine ⟨rfl, ?_, min_le_right _ _, ?_⟩
  · unfold usagePercentageUnlimited usagePercentage
    rw [if_neg]
    intro heq
    rw [heq] at ht
    norm_num at ht
  · intro hlt
    unfold usagePercentage
    have h1 : (1 : ℚ) < current / total := (one_lt_div ht).mpr hlt
    have h2 : (100 : ℚ) ≤ current / total * 100 := by nlinarith
    exact min_eq_right h2

/-- Witness for usage_meter_capped: 150 of 100 monthly books renders as 100
percent, not 150. -/
theorem usage_meter_capped_witness :
    (0 : ℚ) ≤ 150 ∧ (0 : ℚ) < 100 ∧ usagePercentage 150 100 = 100 := by
  refine ⟨by norm_num, by norm_num, ?_⟩
  exact (usage_meter_capped 150 100 (by norm_num) (by norm_num)).2.2.2 (by norm_num)

/-- Appending an inactive artifact never changes which artifact is found
active. -/
theorem find?_active_append_inactive (l : List ModelArtifact) (a : ModelArtifact)
    (ha : a.isActive = false) (d : String) :
    (l ++ [a]).find? (fun x => x.domainId == d && x.isActive) =
      l.find? (fun x => x.domainId == d && x.isActive) := by
  rw [List.find?_append]
  have hnone : [a].find? (fun x => x.domainId == d && x.isActive) = none := by
    simp [List.find?, ha]
  rw [hnone]
  cases l.find? (fun x => x.domainId == d && x.isActive) <;> rfl

/-- Updating the status of the job with a given id commutes with looking that
id up. -/
theorem find?_map_setStatus (l : List TrainingJob) (jid : Nat) (st : JobStatus) :
    (l.map (fun j => if j.id == jid then { j with status := st } else j)).find?
        (fun j => j.id == jid) =
      (l.find? (fun j => j.id == jid)).map (fun j => { j with status := st }) := by
  rw [List.find?_map]
  have hp : ((fun j : TrainingJob => j.id == jid) ∘
      (fun j => if j.id == jid then { j with status := st } else j)) =
      (fun j : TrainingJob => j.id == jid) := by
    funext j
    by_cases h : j.id = jid
    · simp [h]
    · simp [h]
  rw [hp]
  cases hfind : l.find? (fun j => j.id == jid) with
  | none => rfl
  | some x =>
    have hx : (x.id == jid) = true := List.find?_some (p := fun j : TrainingJob => j.id == jid) hfind
    have hx2 : x.id = jid := by simpa using hx
    simp [hx2]

/-- C7: the running-to-completed transition registers exactly one new
ModelArtifact for the job's domain, the artifact is not auto-activated
(isActive stays false and every domain's active artifact is unchanged), and
the job is marked completed. -/
theorem complete_registers_one_inactive (s : SchedState) (jid : Nat) (j : TrainingJob)
    (checkpointLocation : String) (m : TrainMetrics)
    (hfind : s.findJob jid = some j) (hr : j.status = JobStatus.running) :
    (∃ a, (s.completeJob jid checkpointLocation m).registry.artifacts =
            s.registry.artifacts ++ [a] ∧
          a.isActive = false ∧ a.domainId = j.domainId ∧ a.sourceJobId = jid) ∧
    (s.completeJob jid checkpointLocation m).registry.artifacts.length =
        s.registry.artifacts.length + 1 ∧
    (∀ d, (s.completeJob jid checkpointLocation m).registry.activeFor d =
        s.registry.activeFor d) ∧
    ((s.completeJob jid checkpointLocation m).findJob jid).map (fun j2 => j2.status) =
        some JobStatus.completed := by
  refine ⟨⟨{ id := s.registry.nextArtifactId
             domainId := j.domainId
             version :=
               (s.registry.artifacts.filter (fun b => b.domainId == j.domainId)).length + 1
             sourceJobId := jid
             checkpointLocation := checkpointLocation
             metrics := m
             isActive := false }, ?_, rfl, rfl, rfl⟩, ?_, ?_, ?_⟩
  · simp [SchedState.completeJob, hfind, Registry.register, SchedState.setStatus]
  · simp [SchedState.completeJob, hfind, Registry.register, SchedState.setStatus]
  · intro d
    show Registry.activeFor _ d = Registry.activeFor _ d
    simp only [SchedState.completeJob, hfind, Registry.register, Registry.activeFor,
      SchedState.setStatus]
    exact find?_active_append_inactive _ _ rfl d
  · have hf : List.find? (fun j2 => j2.id == jid) s.jobs = some j := hfind
    simp only [SchedState.completeJob, SchedState.findJob, SchedState.setStatus, hf]
    rw [find?_map_setStatus, hf]
    rfl

/-- Witness for complete_registers_one_inactive: completing the running
nutrition job of the concrete scheduler state registers one inactive
artifact and activates nothing. -/
theorem complete_registers_one_inactive_witness :
    schedW.findJob 0 = some jobW ∧ jobW.status = JobStatus.running ∧
    (schedW.completeJob 0 "models/final_model" metricsW).registry.artifacts.length =
      schedW.registry.artifacts.length + 1 ∧
    (∀ d, (schedW.completeJob 0 "models/final_model" metricsW).registry.activeFor d =
      schedW.registry.activeFor d) := by
  have h := complete_registers_one_inactive schedW 0 jobW "models/final_model" metricsW
    rfl rfl
  exact ⟨rfl, rfl, h.2.1, h.2.2.1⟩

/-- The isOk test of an error result is false. -/
@[simp] theorem except_isOk_error {e : Type} {a : Type} (x : e) :
    (Except.error x : Except e a).isOk = false := rfl

/-- The isOk test of an ok result is true. -/
@[simp] theorem except_isOk_ok {e : Type} {a : Type} (x : a) :
    (Except.ok x : Except e a).isOk = true := rfl

/-- The validator accepts a raw example exactly when every check passes. -/
theorem validate_isOk_iff (targetDomain : String) (seenIds : List String)
    (r : RawExample) :
    (validate targetDomain seenIds r).isOk = true ↔
      ChecksPass targetDomain seenIds r := by
  obtain ⟨rid, rdom, rinp, routp, rctx, rdiff, rtier, rtags, rqs, rsrc, rca, rtc⟩ := r
  cases rdom with
  | none => simp [validate, ChecksPass, RequiredPresent]
  | some dom =>
  cases rinp with
  | none => simp [validate, ChecksPass, RequiredPresent]
  | some inp =>
  cases routp with
  | none => simp [validate, ChecksPass, RequiredPresent]
  | some outp =>
  cases rdiff with
  | none => simp [validate, ChecksPass, RequiredPresent]
  | some diff =>
  cases rtier with
  | none => simp [validate, ChecksPass, RequiredPresent]
  | some tierStr =>
  simp only [validate]
  cases h4 : tierOfString tierStr with
  | none =>
    dsimp only
    split_ifs with h1 h2 h3
    · refine iff_of_false (by simp) ?_
      intro hcp
      simp only [ChecksPass, RequiredPresent] at hcp
      obtain ⟨-, hI, -, -, -, -, -⟩ := hcp
      exact absurd (hI inp rfl) (by omega)
    · refine iff_of_false (by simp) ?_
      intro hcp
      simp only [ChecksPass, RequiredPresent] at hcp
      obtain ⟨-, -, hO, -, -, -, -⟩ := hcp
      exact absurd (hO outp rfl) (by omega)
    · refine iff_of_false (by simp) ?_
      intro hcp
      simp only [ChecksPass, RequiredPresent] at hcp
      obtain ⟨-, -, -, hD, -, -, -⟩ := hcp
      have := hD diff rfl
      omega
    · refine iff_of_false (by simp) ?_
      intro hcp
      simp only [ChecksPass, RequiredPresent] at hcp
      obtain ⟨-, -, -, -, hT, -, -⟩ := hcp
      have hsome := (tierOfString_isSome_iff tierStr).mpr (hT tierStr rfl)
      rw [h4] at hsome
      exact absurd hsome (by simp)
  | some tr =>
    dsimp only
    split_ifs with h1 h2 h3 h5 h6
    · refine iff_of_false (by simp) ?_
      intro hcp
      simp only [ChecksPass, RequiredPresent] at hcp
      obtain ⟨-, hI, -, -, -, -, -⟩ := hcp
      exact absurd (hI inp rfl) (by omega)
    · refine iff_of_false (by simp) ?_
      intro hcp
      simp only [ChecksPass, RequiredPresent] at hcp
      obtain ⟨-, -, hO, -, -, -, -⟩ := hcp
      exact absurd (hO outp rfl) (by omega)
    · refine iff_of_false (by simp) ?_
      intro hcp
      simp only [ChecksPass, RequiredPresent] at hcp
      obtain ⟨-, -, -, hD, -, -, -⟩ := hcp
      have := hD diff rfl
      omega
    · refine iff_of_false (by simp) ?_
      intro hcp
      simp only [ChecksPass, RequiredPresent] at hcp
      obtain ⟨-, -, -, -, -, hDom, -⟩ := hcp
      exact h5 (hDom dom rfl)
    · refine iff_of_false (by simp) ?_
      intro hcp
      simp only [ChecksPass, RequiredPresent] at hcp
      obtain ⟨-, -, -, -, -, -, hId⟩ := hcp
      exact hId h6
    · refine iff_of_true (by simp) ?_
      simp only [ChecksPass, RequiredPresent]
      refine ⟨⟨rfl, rfl, rfl, rfl, rfl⟩, ?_, ?_, ?_, ?_, ?_, h6⟩
      · intro s hs
        simp only [Option.some.injEq] at hs
        subst hs
        omega
      · intro s hs
        simp only [Option.some.injEq] at hs
        subst hs
        omega
      · intro n hn
        simp only [Option.some.injEq] at hn
        subst hn
        omega
      · intro s hs
        simp only [Option.some.injEq] at hs
        subst hs
        exact (tierOfString_isSome_iff _).mp (by rw [h4]; rfl)
      · intro s hs
        simp only [Option.some.injEq] at hs
        subst hs
        exact not_not.mp h5

/-- On rejection, the validator reports exactly the first failing check of the
spec's ordered check list. -/
theorem validate_error_iff (targetDomain : String) (seenIds : List String)
    (r : RawExample) (e : ValidationError) :
    validate targetDomain seenIds r = Except.error e ↔
      (failedChecks targetDomain seenIds r).head? = some e := by
  obtain ⟨rid, rdom, rinp, routp, rctx, rdiff, rtier, rtags, rqs, rsrc, rca, rtc⟩ := r
  cases rdom with
  | none => simp [validate, failedChecks, orderedChecks]
  | some dom =>
  cases rinp with
  | none => simp [validate, failedChecks, orderedChecks]
  | some inp =>
  cases routp with
  | none => simp [validate, failedChecks, orderedChecks]
  | some outp =>
  cases rdiff with
  | none => simp [validate, failedChecks, orderedChecks]
  | some diff =>
  cases rtier with
  | none => simp [validate, failedChecks, orderedChecks]
  | some tierStr =>
  simp only [validate]
  cases h4 : tierOfString tierStr with
  | none =>
    dsimp only
    split_ifs with h1 h2 h3
    · simp [failedChecks, orderedChecks, h1]
    · simp [failedChecks, orderedChecks, h1, h2]
    · simp [failedChecks, orderedChecks, h1, h2, h3]
    · have h3a : ¬ diff < 1 := fun hlt => h3 (Or.inl hlt)
      have h3b : ¬ 10 < diff := fun hlt => h3 (Or.inr hlt)
      simp [failedChecks, orderedChecks, h1, h2, h3a, h3b, h4]
  | some tr =>
    dsimp only
    split_ifs with h1 h2 h3 h5 h6
    · simp [failedChecks, orderedChecks, h1]
    · simp [failedChecks, orderedChecks, h1, h2]
    · simp [failedChecks, orderedChecks, h1, h2, h3]
    · have h3a : ¬ diff < 1 := fun hlt => h3 (Or.inl hlt)
      have h3b : ¬ 10 < diff := fun hlt => h3 (Or.inr hlt)
      simp [failedChecks, orderedChecks, h1, h2, h3a, h3b, h4, h5]
    · have h3a : ¬ diff < 1 := fun hlt => h3 (Or.inl hlt)
      have h3b : ¬ 10 < diff := fun hlt => h3 (Or.inr hlt)
      have h5a : dom = targetDomain := not_not.mp h5
      simp [failedChecks, orderedChecks, h1, h2, h3a, h3b, h4, h5a, h6]
    · have h3a : ¬ diff < 1 := fun hlt => h3 (Or.inl hlt)
      have h3b : ¬ 10 < diff := fun hlt => h3 (Or.inr hlt)
      have h5a : dom = targetDomain := not_not.mp h5
      simp [failedChecks, orderedChecks, h1, h2, h3a, h3b, h4, h5a, h6]

/-- C4: the validator accepts a raw example if and only if all checks pass
(required fields, content lengths, difficulty range, tier enumeration,
case-sensitive domain match, batch-unique id); on any failure it returns the
ValidationError of the first failing check in the spec's listed order,
carrying the offending value. -/
theorem validate_checks_in_order (targetDomain : String) (seenIds : List String)
    (r : RawExample) :
    ((validate targetDomain seenIds r).isOk = true ↔
      ChecksPass targetDomain seenIds r) ∧
    (∀ e, validate targetDomain seenIds r = Except.error e ↔
      (failedChecks targetDomain seenIds r).head? = some e) :=
  ⟨validate_isOk_iff targetDomain seenIds r,
   fun e => validate_error_iff targetDomain seenIds r e⟩

/-- C9: a tier-vs-difficulty mismatch is never by itself a reason for
rejection — every raw example whose checks pass is accepted, whatever its
difficulty/tier combination, and the mismatch is flagged exactly by the
warning, not by a ValidationError. -/
theorem validate_mismatch_warning_only (targetDomain : String)
    (seenIds : List String) (r : RawExample)
    (h : ChecksPass targetDomain seenIds r) :
    ∃ ex, validate targetDomain seenIds r = Except.ok ex ∧
      ((mismatchWarning ex).isSome = true ↔ tierMismatch ex = true) := by
  have hok : (validate targetDomain seenIds r).isOk = true :=
    (validate_isOk_iff targetDomain seenIds r).mpr h
  cases hval : validate targetDomain seenIds r with
  | error e => rw [hval] at hok; exact absurd hok (by simp)
  | ok ex =>
    refine ⟨ex, rfl, ?_⟩
    unfold mismatchWarning
    by_cases hm : tierMismatch ex = true
    · simp [hm]
    · simp [hm]

/-- Witness for validate_mismatch_warning_only: a concrete raw example with
difficulty 9 but tier basic passes validation and only raises a warning. -/
theorem validate_mismatch_warning_only_witness :
    ChecksPass "nutrition" [] mismatchRaw ∧
    ∃ ex, validate "nutrition" [] mismatchRaw = Except.ok ex ∧
      ((mismatchWarning ex).isSome = true ↔ tierMismatch ex = true) := by
  have hpass : ChecksPass "nutrition" [] mismatchRaw := by
    refine ⟨⟨rfl, rfl, rfl, rfl, rfl⟩, ?_, ?_, ?_, ?_, ?_, ?_⟩ <;>
      simp [mismatchRaw] <;> decide
  exact ⟨hpass, validate_mismatch_warning_only "nutrition" [] mismatchRaw hpass⟩

/-- A property holds of some tier exactly when it holds of one of the three. -/
theorem tier_exists_iff (P : Tier → Prop) :
    (∃ t, P t) ↔ P Tier.basic ∨ P Tier.professional ∨ P Tier.enterprise := by
  constructor
  · rintro ⟨t, h⟩
    cases t
    · exact Or.inl h
    · exact Or.inr (Or.inl h)
    · exact Or.inr (Or.inr h)
  · rintro (h | h | h)
    exacts [⟨_, h⟩, ⟨_, h⟩, ⟨_, h⟩]

/-- C5: assemble fails with InsufficientCoverage exactly when the domain
declares all three tiers supported and some tier bucket of the validated
examples is empty, or the validated examples number below the configured
minimum; in particular a domain requiring professional and enterprise
coverage fails on a basic-only batch, and a relaxed minimum-coverage
configuration with a basic-only domain succeeds on the same batch. -/
theorem assemble_insufficient_coverage_iff :
    (∀ (cfg : AssemblyConfig) (dom : Domain) (exs : List TrainingExample) (pv : Nat),
      assemble cfg dom exs pv = Except.error AssemblyError.InsufficientCoverage ↔
        ((Tier.basic ∈ dom.subscriptionTiers ∧ Tier.professional ∈ dom.subscriptionTiers ∧
            Tier.enterprise ∈ dom.subscriptionTiers) ∧
          (∃ t, tierBucket (exs.filter (fun e => e.metadata.validated)) t = [])) ∨
        (exs.filter (fun e => e.metadata.validated)).length < cfg.minExamplesPerDomain) ∧
    assemble defaultAssemblyConfig nutritionAllTiers basicOnlyExamples 0 =
      Except.error AssemblyError.InsufficientCoverage ∧
    (assemble relaxedAssemblyConfig nutritionBasicOnly basicOnlyExamples 0).isOk = true := by
  refine ⟨?_, rfl, rfl⟩
  intro cfg dom exs pv
  simp only [assemble]
  split_ifs with hcond
  · refine iff_of_true rfl ?_
    revert hcond
    simp only [declaresAllTiers, tier_exists_iff, List.isEmpty_iff, Bool.and_eq_true,
      Bool.or_eq_true, decide_eq_true_eq]
    tauto
  · refine iff_of_false (by simp) ?_
    revert hcond
    simp only [declaresAllTiers, tier_exists_iff, List.isEmpty_iff, Bool.and_eq_true,
      Bool.or_eq_true, decide_eq_true_eq]
    tauto

/-- Counting with pointwise-equal predicates gives the same count. -/
theorem countP_congr_mem {α : Type} (p q : α → Bool) :
    ∀ l : List α, (∀ a ∈ l, p a = q a) → l.countP p = l.countP q := by
  intro l
  induction l with
  | nil => intro _; rfl
  | cons a l ih =>
    intro h
    rw [List.countP_cons, List.countP_cons, h a (by simp),
      ih (fun x hx => h x (by simp [hx]))]

/-- When the keys of a list are distinct, at most one element carries any
given key. -/
theorem countP_key_le_one {α : Type} (key : α → Nat) (k : Nat) (l : List α)
    (hnodup : (l.map key).Nodup) : l.countP (fun a => key a == k) ≤ 1 := by
  have h1 : l.countP (fun a => key a == k) = (l.map key).count k := by
    rw [List.count_eq_countP, List.countP_map]
    rfl
  rw [h1]
  exact List.nodup_iff_count_le_one.mp hnodup k

/-- After an activation step, the activated artifact is exactly the one found
active for its domain. -/
theorem find?_active_after_activate (l : List ModelArtifact) (aid : Nat)
    (b : ModelArtifact) (hmem : b ∈ l) (hbid : b.id = aid)
    (hnodup : (l.map (fun a => a.id)).Nodup) :
    (l.map (fun a =>
        if a.domainId == b.domainId then { a with isActive := a.id == aid } else a)).find?
        (fun a => a.domainId == b.domainId && a.isActive) =
      some { b with isActive := true } := by
  induction l with
  | nil => cases hmem
  | cons a l ih =>
    simp only [List.map_cons, List.nodup_cons] at hnodup
    obtain ⟨hnotin, hnodup2⟩ := hnodup
    rcases List.mem_cons.mp hmem with rfl | hmem2
    · have hfb : (if b.domainId == b.domainId then { b with isActive := b.id == aid }
          else b) = { b with isActive := true } := by
        simp [hbid]
      simp [hfb, List.find?_cons, hbid]
    · have hne : a.id ≠ aid := by
        intro heq
        exact hnotin (List.mem_map.mpr ⟨b, hmem2, by rw [hbid, heq]⟩)
      have hfalse : (a.id == aid) = false := by simp [hne]
      by_cases hdom : (a.domainId == b.domainId) = true
      · have hfa : (if a.domainId == b.domainId then { a with isActive := a.id == aid }
            else a) = { a with isActive := a.id == aid } := by simp [hdom]
        simp only [List.map_cons, hfa, List.find?_cons]
        simp only [hfalse, Bool.and_false]
        exact ih hmem2 hnodup2
      · have hfa : (if a.domainId == b.domainId then { a with isActive := a.id == aid }
            else a) = a := by simp [hdom]
        have hdf : (a.domainId == b.domainId) = false := by
          simpa using hdom
        simp only [List.map_cons, hfa, List.find?_cons]
        simp only [hdf, Bool.false_and]
        exact ih hmem2 hnodup2

/-- Every reachable registry state is well formed and holds at most one active
artifact per domain. -/
theorem registry_reachable_inv (r : Registry) (h : RegistryReachable r) :
    Registry.Wf r ∧ ∀ d, r.activeCount d ≤ 1 := by
  induction h with
  | init =>
    refine ⟨⟨List.nodup_nil, ?_⟩, ?_⟩
    · intro a ha
      simp [Registry.empty] at ha
    · intro d
      simp [Registry.empty, Registry.activeCount]
  | @step r0 r1 hreach hstep ih =>
    obtain ⟨⟨hnodup, hbound⟩, hcount⟩ := ih
    cases hstep with
    | register jobId domainId ckpt m =>
      refine ⟨⟨?_, ?_⟩, ?_⟩
      · simp only [Registry.register, List.map_append]
        refine List.nodup_append.mpr ⟨hnodup, List.nodup_singleton _, ?_⟩
        intro x hx hx2
        simp only [List.map_cons, List.map_nil, List.mem_singleton] at hx2
        subst hx2
        obtain ⟨a, ha, hax⟩ := List.mem_map.mp hx
        have := hbound a ha
        omega
      · intro a ha
        simp only [Registry.register] at ha
        rcases List.mem_append.mp ha with h1 | h1
        · exact Nat.lt_succ_of_lt (hbound a h1)
        · simp only [List.mem_singleton] at h1
          subst h1
          exact Nat.lt_succ_self _
      · intro d
        simp only [Registry.activeCount, Registry.register, List.filter_append]
        simp
        simpa [Registry.activeCount] using hcount d
    | activate aid r1 hact =>
      cases hlook : r0.lookup aid with
      | none =>
        simp only [Registry.activate, hlook] at hact
        exact absurd hact (by simp)
      | some b =>
        simp only [Registry.activate, hlook] at hact
        injection hact with hact
        subst hact
        have hid : ∀ a : ModelArtifact,
            (if a.domainId == b.domainId then { a with isActive := a.id == aid }
              else a).id = a.id := by
          intro a
          by_cases hdom : (a.domainId == b.domainId) = true
          · simp [hdom]
          · simp [hdom]
        refine ⟨⟨?_, ?_⟩, ?_⟩
        · dsimp only
          rw [List.map_map]
          have hcomp : ((fun a : ModelArtifact => a.id) ∘ fun a =>
              if a.domainId == b.domainId then { a with isActive := a.id == aid }
              else a) = fun a : ModelArtifact => a.id := funext fun a => hid a
          rw [hcomp]
          exact hnodup
        · intro a ha
          dsimp only at ha
          obtain ⟨a0, ha0, rfl⟩ := List.mem_map.mp ha
          rw [hid a0]
          exact hbound a0 ha0
        · intro d
          simp only [Registry.activeCount]
          rw [← List.countP_eq_length_filter, List.countP_map]
          by_cases hd : d = b.domainId
          · rw [hd]
            have hmono : ∀ a ∈ r0.artifacts,
                ((fun x : ModelArtifact => x.domainId == b.domainId && x.isActive) ∘ fun a =>
                  if a.domainId == b.domainId then { a with isActive := a.id == aid }
                  else a) a =
                  true → (fun x : ModelArtifact => x.id == aid) a = true := by
              intro a _ hp
              simp only [Function.comp_apply] at hp
              by_cases hdom : (a.domainId == b.domainId) = true
              · rw [if_pos hdom] at hp
                simp only [Bool.and_eq_true] at hp
                exact hp.2
              · rw [if_neg hdom] at hp
                simp only [Bool.and_eq_true] at hp
                exact absurd hp.1 hdom
            exact le_trans (List.countP_mono_left hmono)
              (countP_key_le_one (fun a : ModelArtifact => a.id) aid _ hnodup)
          · have hpt : ∀ a ∈ r0.artifacts,
                ((fun x : ModelArtifact => x.domainId == d && x.isActive) ∘ fun a =>
                  if a.domainId == b.domainId then { a with isActive := a.id == aid }
                  else a) a =
                  (fun x : ModelArtifact => x.domainId == d && x.isActive) a := by
              intro a _
              simp only [Function.comp_apply]
              by_cases hdom : (a.domainId == b.domainId) = true
              · have had : a.domainId = b.domainId := by simpa using hdom
                have h1 : (a.domainId == d) = false := by
                  rw [had]
                  simp only [beq_eq_false_iff_ne]
                  exact fun hdb => hd hdb.symm
                rw [if_pos hdom]
                simp [h1]
              · rw [if_neg hdom]
            rw [countP_congr_mem _ _ _ hpt]
            have hc := hcount d
            simp only [Registry.activeCount] at hc
            rw [← List.countP_eq_length_filter] at hc
            exact hc

/-- C1: in every reachable registry state at most one artifact per domain is
active; activate performs deactivation of the old artifact and activation of
the new one as one atomic transition, so activeFor at each of its two
observable states returns the old active artifact (before) or the newly
activated one (after) — never none and never two. -/
theorem registry_activate_atomic_unique (r : Registry) (hr : RegistryReachable r) :
    (∀ d, r.activeCount d ≤ 1) ∧
    (∀ aid b r', r.lookup aid = some b → r.activate aid = Except.ok r' →
      r'.activeFor b.domainId = some { b with isActive := true } ∧
      (∀ x ∈ [r, r'], ∀ a, r.activeFor b.domainId = some a →
        x.activeFor b.domainId = some a ∨
          x.activeFor b.domainId = some { b with isActive := true })) := by
  obtain ⟨⟨hnodup, hbound⟩, hcount⟩ := registry_reachable_inv r hr
  refine ⟨hcount, ?_⟩
  intro aid b r' hlook hact
  simp only [Registry.activate, hlook] at hact
  injection hact with hact
  subst hact
  have hlook2 : r.artifacts.find? (fun a => a.id == aid) = some b := hlook
  have hbid : b.id = aid := by
    have := List.find?_some (p := fun a : ModelArtifact => a.id == aid) hlook2
    simpa using this
  have hmem : b ∈ r.artifacts :=
    List.mem_of_find?_eq_some (p := fun a : ModelArtifact => a.id == aid) hlook2
  have hmain := find?_active_after_activate r.artifacts aid b hmem hbid hnodup
  refine ⟨hmain, ?_⟩
  intro x hx a hA
  rcases List.mem_cons.mp hx with rfl | hx2
  · exact Or.inl hA
  · simp only [List.mem_singleton] at hx2
    subst hx2
    exact Or.inr hmain

/-- Witness for registry_activate_atomic_unique: register one nutrition
artifact in the empty registry, activate it, and observe it as the unique
active artifact. -/
theorem registry_activate_atomic_unique_witness :
    RegistryReachable registryW ∧
    Registry.lookup registryW 0 = some artifactInactiveW ∧
    ∃ r2, Registry.activate registryW 0 = Except.ok r2 ∧
      r2.activeFor "nutrition" = some artifactActiveW := by
  have hreach : RegistryReachable registryW :=
    RegistryReachable.step RegistryReachable.init
      (RegistryStep.register Registry.empty 0 "nutrition" "models/final_model" metricsW)
  refine ⟨hreach, rfl, registryActivatedW, rfl, ?_⟩
  exact ((registry_activate_atomic_unique registryW hreach).2 0
    artifactInactiveW registryActivatedW rfl rfl).1

/-- A job-table update that preserves ids preserves well-formedness of the
job table. -/
theorem wf_jobs_map (s0 : SchedState) (f : TrainingJob → TrainingJob)
    (hid : ∀ x, (f x).id = x.id)
    (hnodup : (s0.jobs.map (fun x => x.id)).Nodup)
    (hbound : ∀ x ∈ s0.jobs, x.id < s0.nextJobId) :
    ((s0.jobs.map f).map (fun x => x.id)).Nodup ∧
      ∀ x ∈ s0.jobs.map f, x.id < s0.nextJobId := by
  constructor
  · rw [List.map_map]
    have hcomp : ((fun x : TrainingJob => x.id) ∘ f) = fun x : TrainingJob => x.id :=
      funext hid
    rw [hcomp]
    exact hnodup
  · intro x hx
    obtain ⟨x0, hx0, rfl⟩ := List.mem_map.mp hx
    rw [hid x0]
    exact hbound x0 hx0

/-- A job-table update that never makes an element newly running does not
increase the running count. -/
theorem countP_running_map_le (l : List TrainingJob) (d : String)
    (f : TrainingJob → TrainingJob)
    (hf : ∀ x ∈ l,
      ((fun y : TrainingJob => y.domainId == d && y.status == JobStatus.running) ∘ f) x =
        true → (x.domainId == d && x.status == JobStatus.running) = true) :
    ((l.map f).filter
        (fun y => y.domainId == d && y.status == JobStatus.running)).length ≤
      (l.filter (fun y => y.domainId == d && y.status == JobStatus.running)).length := by
  rw [← List.countP_eq_length_filter, ← List.countP_eq_length_filter, List.countP_map]
  exact List.countP_mono_left hf

/-- The status-update functions of the scheduler preserve job ids. -/
theorem setStatus_preserves_id (jid : Nat) (st : JobStatus) :
    ∀ x : TrainingJob, (if x.id == jid then { x with status := st } else x).id = x.id := by
  intro x
  by_cases hx : (x.id == jid) = true
  · rw [if_pos hx]
  · rw [if_neg hx]

/-- The fail-update function of the scheduler preserves job ids. -/
theorem failUpdate_preserves_id (jid : Nat) (msg : String) :
    ∀ x : TrainingJob,
      (if x.id == jid then
        { x with status := JobStatus.failed, errorMessage := some msg } else x).id = x.id := by
  intro x
  by_cases hx : (x.id == jid) = true
  · rw [if_pos hx]
  · rw [if_neg hx]

/-- Every reachable scheduler state is well formed and runs at most one job
per domain. -/
theorem sched_reachable_inv (s : SchedState) (h : SchedReachable s) :
    SchedState.Wf s ∧ ∀ d, s.runningCount d ≤ 1 := by
  induction h with
  | init =>
    refine ⟨⟨List.nodup_nil, ?_⟩, ?_⟩
    · intro j hj
      simp [SchedState.init] at hj
    · intro d
      simp [SchedState.init, SchedState.runningCount]
  | @step s0 s1 hreach hstep ih =>
    obtain ⟨⟨hnodup, hbound⟩, hcount⟩ := ih
    cases hstep with
    | submit domainId datasetVersion hyp =>
      refine ⟨⟨?_, ?_⟩, ?_⟩
      · simp only [SchedState.submit, List.map_append]
        refine List.nodup_append.mpr ⟨hnodup, List.nodup_singleton _, ?_⟩
        intro x hx hx2
        simp only [List.map_cons, List.map_nil, List.mem_singleton] at hx2
        subst hx2
        obtain ⟨a, ha, hax⟩ := List.mem_map.mp hx
        have := hbound a ha
        omega
      · intro j hj
        simp only [SchedState.submit] at hj
        rcases List.mem_append.mp hj with h1 | h1
        · exact Nat.lt_succ_of_lt (hbound j h1)
        · simp only [List.mem_singleton] at h1
          subst h1
          exact Nat.lt_succ_self _
      · intro d
        have hqr : (JobStatus.queued == JobStatus.running) = false := rfl
        simp only [SchedState.runningCount, SchedState.submit, List.filter_append]
        simp [hqr]
        simpa [SchedState.runningCount] using hcount d
    | start jid j hfind hq hlock =>
      have hwf := wf_jobs_map s0
        (fun x => if x.id == jid then { x with status := JobStatus.running } else x)
        (setStatus_preserves_id jid JobStatus.running) hnodup hbound
      refine ⟨⟨hwf.1, hwf.2⟩, ?_⟩
      intro d
      simp only [SchedState.runningCount, SchedState.setStatus]
      rw [← List.countP_eq_length_filter, List.countP_map]
      by_cases hd : d = j.domainId
      · rw [hd]
        have hl : ∀ x ∈ s0.jobs,
            ¬ ((x.domainId == j.domainId && x.status == JobStatus.running) = true) := by
          have hany := hlock
          simp only [SchedState.domainHasRunning, List.any_eq_false] at hany
          exact hany
        have hmono : ∀ x ∈ s0.jobs,
            ((fun y : TrainingJob =>
                y.domainId == j.domainId && y.status == JobStatus.running) ∘ fun y =>
              if y.id == jid then { y with status := JobStatus.running } else y) x = true →
            (fun y : TrainingJob => y.id == jid) x = true := by
          intro x hx hp
          simp only [Function.comp_apply] at hp
          by_cases hxid : (x.id == jid) = true
          · exact hxid
          · rw [if_neg hxid] at hp
            exact absurd hp (hl x hx)
        exact le_trans (List.countP_mono_left hmono)
          (countP_key_le_one (fun x : TrainingJob => x.id) jid _ hnodup)
      · have hjmem : j ∈ s0.jobs :=
          List.mem_of_find?_eq_some (p := fun x : TrainingJob => x.id == jid) hfind
        have hjid : j.id = jid := by
          have := List.find?_some (p := fun x : TrainingJob => x.id == jid) hfind
          simpa using this
        have hpt : ∀ x ∈ s0.jobs,
            ((fun y : TrainingJob => y.domainId == d && y.status == JobStatus.running) ∘
              fun y => if y.id == jid then { y with status := JobStatus.running } else y) x =
            (fun y : TrainingJob => y.domainId == d && y.status == JobStatus.running) x := by
          intro x hx
          simp only [Function.comp_apply]
          by_cases hxid : (x.id == jid) = true
          · have hxeq : x = j := by
              have hxid2 : x.id = jid := by simpa using hxid
              exact List.inj_on_of_nodup_map hnodup hx hjmem (by rw [hxid2, hjid])
            rw [if_pos hxid]
            have hdf : (x.domainId == d) = false := by
              rw [hxeq]
              simp only [beq_eq_false_iff_ne]
              exact fun hdb => hd hdb.symm
            simp [hdf]
          · rw [if_neg hxid]
        rw [countP_congr_mem _ _ _ hpt]
        have hc := hcount d
        simp only [SchedState.runningCount] at hc
        rw [← List.countP_eq_length_filter] at hc
        exact hc
    | complete jid j ckpt m hfind hrun =>
      have hf : List.find? (fun x => x.id == jid) s0.jobs = some j := hfind
      have hwf := wf_jobs_map s0
        (fun x => if x.id == jid then { x with status := JobStatus.completed } else x)
        (setStatus_preserves_id jid JobStatus.completed) hnodup hbound
      refine ⟨⟨?_, ?_⟩, ?_⟩
      · simp only [SchedState.completeJob, SchedState.findJob, hf, SchedState.setStatus]
        exact hwf.1
      · intro x hx
        simp only [SchedState.completeJob, SchedState.findJob, hf,
          SchedState.setStatus] at hx ⊢
        exact hwf.2 x hx
      · intro d
        simp only [SchedState.runningCount, SchedState.completeJob, SchedState.findJob,
          hf, SchedState.setStatus]
        refine le_trans (countP_running_map_le _ _ _ ?_) ?_
        · intro x hx hp
          simp only [Function.comp_apply] at hp
          by_cases hxid : (x.id == jid) = true
          · rw [if_pos hxid] at hp
            have hcr : (JobStatus.completed == JobStatus.running) = false := rfl
            rw [hcr, Bool.and_false] at hp
            simp at hp
          · rw [if_neg hxid] at hp
            exact hp
        · simpa [SchedState.runningCount] using hcount d
    | fail jid j msg hfind hrun =>
      have hwf := wf_jobs_map s0
        (fun x => if x.id == jid then
          { x with status := JobStatus.failed, errorMessage := some msg } else x)
        (failUpdate_preserves_id jid msg) hnodup hbound
      refine ⟨⟨hwf.1, hwf.2⟩, ?_⟩
      intro d
      simp only [SchedState.runningCount, SchedState.failJob]
      refine le_trans (countP_running_map_le _ _ _ ?_) ?_
      · intro x hx hp
        simp only [Function.comp_apply] at hp
        by_cases hxid : (x.id == jid) = true
        · rw [if_pos hxid] at hp
          have hcr : (JobStatus.failed == JobStatus.running) = false := rfl
          rw [hcr, Bool.and_false] at hp
          simp at hp
        · rw [if_neg hxid] at hp
          exact hp
      · simpa [SchedState.runningCount] using hcount d
    | cancelRunning jid j hfind hrun =>
      have hwf := wf_jobs_map s0
        (fun x => if x.id == jid then { x with status := JobStatus.cancelled } else x)
        (setStatus_preserves_id jid JobStatus.cancelled) hnodup hbound
      refine ⟨⟨hwf.1, hwf.2⟩, ?_⟩
      intro d
      simp only [SchedState.runningCount, SchedState.setStatus]
      refine le_trans (countP_running_map_le _ _ _ ?_) ?_
      · intro x hx hp
        simp only [Function.comp_apply] at hp
        by_cases hxid : (x.id == jid) = true
        · rw [if_pos hxid] at hp
          have hcr : (JobStatus.cancelled == JobStatus.running) = false := rfl
          rw [hcr, Bool.and_false] at hp
          simp at hp
        · rw [if_neg hxid] at hp
          exact hp
      · simpa [SchedState.runningCount] using hcount d
    | cancelQueued jid j hfind hq =>
      have hwf := wf_jobs_map s0
        (fun x => if x.id == jid then { x with status := JobStatus.cancelled } else x)
        (setStatus_preserves_id jid JobStatus.cancelled) hnodup hbound
      refine ⟨⟨hwf.1, hwf.2⟩, ?_⟩
      intro d
      simp only [SchedState.runningCount, SchedState.setStatus]
      refine le_trans (countP_running_map_le _ _ _ ?_) ?_
      · intro x hx hp
        simp only [Function.comp_apply] at hp
        by_cases hxid : (x.id == jid) = true
        · rw [if_pos hxid] at hp
          have hcr : (JobStatus.cancelled == JobStatus.running) = false := rfl
          rw [hcr, Bool.and_false] at hp
          simp at hp
        · rw [if_neg hxid] at hp
          exact hp
      · simpa [SchedState.runningCount] using hcount d
    | activateArtifact aid r1 hact =>
      exact ⟨⟨hnodup, hbound⟩, hcount⟩

/-- C2: in every reachable scheduler state at most one TrainingJob per domain
has status running; a queued job starts only when no other job of its domain
runs, so two submissions for one domain yield at most one running job at
every observation point. -/
theorem scheduler_at_most_one_running (s : SchedState) (hs : SchedReachable s) :
    ∀ d, s.runningCount d ≤ 1 :=
  (sched_reachable_inv s hs).2

/-- Witness for scheduler_at_most_one_running: two nutrition jobs submitted,
the first started — the reachable state has one running and one queued job. -/
theorem scheduler_at_most_one_running_witness :
    SchedReachable schedW ∧ schedW.runningCount "nutrition" ≤ 1 ∧
    schedW.jobs.map (fun j => j.status) = [JobStatus.running, JobStatus.queued] := by
  have h1 : SchedReachable schedW1 :=
    SchedReachable.step SchedReachable.init
      (SchedStep.submit SchedState.init "nutrition" 1 hyperW)
  have h2 : SchedReachable schedW2 :=
    SchedReachable.step h1 (SchedStep.submit schedW1 "nutrition" 1 hyperW)
  have h3 : SchedReachable schedW :=
    SchedReachable.step h2 (SchedStep.start schedW2 0 jobQueuedW rfl rfl rfl)
  exact ⟨h3, scheduler_at_most_one_running schedW h3 "nutrition", rfl⟩

/-- Bucketing distributes over concatenation. -/
theorem tierBucket_append (x y : List TrainingExample) (t : Tier) :
    tierBucket (x ++ y) t = tierBucket x t ++ tierBucket y t :=
  List.filter_append _ _

/-- Bucketing the empty batch gives the empty bucket. -/
theorem tierBucket_nil (t : Tier) : tierBucket [] t = [] := rfl

/-- The stratified split, written out over the three tier buckets. -/
theorem stratifiedSplit_eq (l : List TrainingExample) :
    stratifiedSplit l =
      ((tierBucket l Tier.basic).take (trainCount (tierBucket l Tier.basic).length) ++
        ((tierBucket l Tier.professional).take
            (trainCount (tierBucket l Tier.professional).length) ++
          ((tierBucket l Tier.enterprise).take
              (trainCount (tierBucket l Tier.enterprise).length) ++ [])),
       (tierBucket l Tier.basic).drop (trainCount (tierBucket l Tier.basic).length) ++
        ((tierBucket l Tier.professional).drop
            (trainCount (tierBucket l Tier.professional).length) ++
          ((tierBucket l Tier.enterprise).drop
              (trainCount (tierBucket l Tier.enterprise).length) ++ []))) := rfl

/-- Taking a prefix of a tier bucket keeps it pure for that tier. -/
theorem tierBucket_take_same (l : List TrainingExample) (t : Tier) (k : Nat) :
    tierBucket ((tierBucket l t).take k) t = (tierBucket l t).take k := by
  apply List.filter_eq_self.mpr
  intro x hx
  have hx2 : x ∈ tierBucket l t := List.mem_of_mem_take hx
  simp only [tierBucket, List.mem_filter] at hx2
  exact hx2.2

/-- A prefix of one tier's bucket holds no example of another tier. -/
theorem tierBucket_take_other (l : List TrainingExample) (t t2 : Tier) (hne : t ≠ t2)
    (k : Nat) : tierBucket ((tierBucket l t).take k) t2 = [] := by
  rw [tierBucket, List.filter_eq_nil_iff]
  intro x hx
  have hx2 : x ∈ tierBucket l t := List.mem_of_mem_take hx
  simp only [tierBucket, List.mem_filter, decide_eq_true_eq] at hx2
  simp only [decide_eq_true_eq]
  rw [hx2.2]
  exact hne

/-- A suffix of a tier bucket keeps it pure for that tier. -/
theorem tierBucket_drop_same (l : List TrainingExample) (t : Tier) (k : Nat) :
    tierBucket ((tierBucket l t).drop k) t = (tierBucket l t).drop k := by
  apply List.filter_eq_self.mpr
  intro x hx
  have hx2 : x ∈ tierBucket l t := List.mem_of_mem_drop hx
  simp only [tierBucket, List.mem_filter] at hx2
  exact hx2.2

/-- A suffix of one tier's bucket holds no example of another tier. -/
theorem tierBucket_drop_other (l : List TrainingExample) (t t2 : Tier) (hne : t ≠ t2)
    (k : Nat) : tierBucket ((tierBucket l t).drop k) t2 = [] := by
  rw [tierBucket, List.filter_eq_nil_iff]
  intro x hx
  have hx2 : x ∈ tierBucket l t := List.mem_of_mem_drop hx
  simp only [tierBucket, List.mem_filter, decide_eq_true_eq] at hx2
  simp only [decide_eq_true_eq]
  rw [hx2.2]
  exact hne

/-- The multiplicity of an example in a tier bucket. -/
theorem count_tierBucket (a : TrainingExample) (l : List TrainingExample) (t : Tier) :
    List.count a (tierBucket l t) = if a.tier = t then List.count a l else 0 := by
  by_cases ht : a.tier = t
  · rw [if_pos ht]
    exact List.count_filter (by simp [ht])
  · rw [if_neg ht]
    rw [List.count_eq_zero]
    intro hmem
    simp only [tierBucket, List.mem_filter, decide_eq_true_eq] at hmem
    exact ht hmem.2

/-- Taking then dropping at the same index splits the multiplicity of any
example. -/
theorem count_take_add_drop {α : Type} [DecidableEq α] (a : α) (l : List α) (k : Nat) :
    List.count a (l.take k) + List.count a (l.drop k) = List.count a l := by
  conv_rhs => rw [← List.take_append_drop k l]
  rw [List.count_append]

/-- C6: a successfully assembled Dataset splits the validated examples 80/20
stratified by tier — the two splits together are a permutation of the
validated examples (each example lands in exactly one split), and for every
tier the train part takes exactly floor(4n/5) of that tier's n examples, so
the validation part keeps between n/5 and n/5+1 of them. -/
theorem assemble_split_stratified (cfg : AssemblyConfig) (dom : Domain)
    (exs : List TrainingExample) (pv : Nat) (ds : Dataset)
    (h : assemble cfg dom exs pv = Except.ok ds) :
    (ds.trainSplit ++ ds.valSplit).Perm
        (exs.filter (fun e => e.metadata.validated)) ∧
    ∀ t : Tier,
      (tierBucket ds.trainSplit t).length + (tierBucket ds.valSplit t).length =
        ds.tierCounts t ∧
      (tierBucket ds.trainSplit t).length = 4 * ds.tierCounts t / 5 ∧
      ds.tierCounts t ≤ 5 * (tierBucket ds.valSplit t).length ∧
      5 * (tierBucket ds.valSplit t).length ≤ ds.tierCounts t + 4 := by
  simp only [assemble] at h
  split_ifs at h with hcond
  injection h with h
  subst h
  constructor
  · dsimp only
    rw [stratifiedSplit_eq]
    dsimp only
    rw [List.perm_iff_count]
    intro a
    simp only [List.count_append, List.count_nil]
    have hb := count_take_add_drop a
      (tierBucket (exs.filter (fun e => e.metadata.validated)) Tier.basic)
      (trainCount (tierBucket (exs.filter (fun e => e.metadata.validated))
        Tier.basic).length)
    have hp := count_take_add_drop a
      (tierBucket (exs.filter (fun e => e.metadata.validated)) Tier.professional)
      (trainCount (tierBucket (exs.filter (fun e => e.metadata.validated))
        Tier.professional).length)
    have he := count_take_add_drop a
      (tierBucket (exs.filter (fun e => e.metadata.validated)) Tier.enterprise)
      (trainCount (tierBucket (exs.filter (fun e => e.metadata.validated))
        Tier.enterprise).length)
    have hsum : List.count a
          (tierBucket (exs.filter (fun e => e.metadata.validated)) Tier.basic) +
        List.count a
          (tierBucket (exs.filter (fun e => e.metadata.validated)) Tier.professional) +
        List.count a
          (tierBucket (exs.filter (fun e => e.metadata.validated)) Tier.enterprise) =
        List.count a (exs.filter (fun e => e.metadata.validated)) := by
      rw [count_tierBucket, count_tierBucket, count_tierBucket]
      cases hat : a.tier <;> simp [hat]
    omega
  · intro t
    dsimp only
    rw [stratifiedSplit_eq]
    dsimp only
    cases t with
    | basic =>
      rw [tierBucket_append, tierBucket_append, tierBucket_append,
        tierBucket_append, tierBucket_append, tierBucket_append, tierBucket_nil,
        tierBucket_take_same, tierBucket_drop_same,
        tierBucket_take_other _ Tier.professional Tier.basic (by decide),
        tierBucket_take_other _ Tier.enterprise Tier.basic (by decide),
        tierBucket_drop_other _ Tier.professional Tier.basic (by decide),
        tierBucket_drop_other _ Tier.enterprise Tier.basic (by decide)]
      simp only [List.length_append, List.length_take, List.length_drop,
        List.length_nil, trainCount]
      omega
    | professional =>
      rw [tierBucket_append, tierBucket_append, tierBucket_append,
        tierBucket_append, tierBucket_append, tierBucket_append, tierBucket_nil,
        tierBucket_take_same, tierBucket_drop_same,
        tierBucket_take_other _ Tier.basic Tier.professional (by decide),
        tierBucket_take_other _ Tier.enterprise Tier.professional (by decide),
        tierBucket_drop_other _ Tier.basic Tier.professional (by decide),
        tierBucket_drop_other _ Tier.enterprise Tier.professional (by decide)]
      simp only [List.length_append, List.length_take, List.length_drop,
        List.length_nil, trainCount]
      omega
    | enterprise =>
      rw [tierBucket_append, tierBucket_append, tierBucket_append,
        tierBucket_append, tierBucket_append, tierBucket_append, tierBucket_nil,
        tierBucket_take_same, tierBucket_drop_same,
        tierBucket_take_other _ Tier.basic Tier.enterprise (by decide),
        tierBucket_take_other _ Tier.professional Tier.enterprise (by decide),
        tierBucket_drop_other _ Tier.basic Tier.enterprise (by decide),
        tierBucket_drop_other _ Tier.professional Tier.enterprise (by decide)]
      simp only [List.length_append, List.length_take, List.length_drop,
        List.length_nil, trainCount]
      omega

/-- Witness for assemble_split_stratified: the relaxed assembly of the
concrete basic-only batch succeeds and its two splits partition the
validated examples. -/
theorem assemble_split_stratified_witness :
    ∃ ds, assemble relaxedAssemblyConfig nutritionBasicOnly basicOnlyExamples 0 =
        Except.ok ds ∧
      (ds.trainSplit ++ ds.valSplit).Perm
        (basicOnlyExamples.filter (fun e => e.metadata.validated)) := by
  have hok : (assemble relaxedAssemblyConfig nutritionBasicOnly basicOnlyExamples 0).isOk
      = true := rfl
  rcases hds : assemble relaxedAssemblyConfig nutritionBasicOnly basicOnlyExamples 0
    with e | ds
  · rw [hds] at hok
    simp at hok
  · exact ⟨ds, rfl, (assemble_split_stratified _ _ _ _ ds hds).1⟩

end BookGen
